import Mathlib

/-! # The padded-JSON HTTPS endpoint of `main.go`

A shallow embedding of `src/main.go`: the request handler `response`, the part
of `encoding/json` it calls, the flag handling of `setLogger`/`main`, and the
TLS configuration built by `main`.

Go strings are modelled as `List Char` (the valid UTF-8 strings); `len` of a
string or of a marshalled byte slice is the UTF-8 byte length `utf8Len`.
-/

namespace Server

/-! ## Strings and byte lengths -/

/-- A Go string holding valid UTF-8, as its sequence of code points. -/
abbrev GoString := List Char

/-- Go's `len` on a string or on the bytes of a text: the UTF-8 byte length. -/
def utf8Len : List Char → Nat
  | [] => 0
  | c :: cs => c.utf8Size + utf8Len cs

/-- Go's `<` on strings: bytewise lexicographic order, which on valid UTF-8 is
    the lexicographic order of the code points. -/
def strLt : GoString → GoString → Bool
  | _, [] => false
  | [], _ :: _ => true
  | a :: as, b :: bs =>
    if a.toNat < b.toNat then true
    else if b.toNat < a.toNat then false
    else strLt as bs

/-- The order `a ≤ b` derived from `strLt`, used to sort map keys. -/
def strLe (a b : GoString) : Prop := strLt b a = false

instance : DecidableRel strLe := fun a b => by
  unfold strLe
  exact inferInstance

/-! ## The message: `map[string]interface{}` with the value types the handler uses -/

/-- The dynamic values stored in the handler's `map[string]interface{}`: a
    `string`, or a nested `map[string]string`. -/
inductive Value where
  | str (s : GoString)
  | strMap (m : List (GoString × GoString))
  deriving DecidableEq, Repr

/-- A `map[string]interface{}` as an association list. -/
abbrev Message := List (GoString × Value)

/-- Map lookup `m[k]`. -/
def mapGet {β : Type} : List (GoString × β) → GoString → Option β
  | [], _ => none
  | (k, v) :: rest, key => if k = key then some v else mapGet rest key

/-- Map assignment `m[k] = v`: replaces the value of an existing key, adds the
    entry otherwise. -/
def mapSet {β : Type} : List (GoString × β) → GoString → β → List (GoString × β)
  | [], key, val => [(key, val)]
  | (k, v) :: rest, key, val =>
    if k = key then (k, val) :: rest else (k, v) :: mapSet rest key val

/-! ## `encoding/json`: `json.Marshal` on these values -/

/-- The table `hex` of `encoding/json`. -/
def hex (n : Nat) : Char := "0123456789abcdef".toList.getD n '0'

/-- One code point of a JSON string as `json.Marshal` writes it (HTML escaping
    on): quote and backslash are backslash-escaped, the control characters get
    their short form or `\u00XX`, `<`, `>`, `&` become `\u00XX`, U+2028 and
    U+2029 become their six-character `\u` form; everything else is copied. -/
def escapeChar (c : Char) : List Char :=
  if c = '"' ∨ c = '\\' then ['\\', c]
  else if c.toNat = 8 then ['\\', 'b']
  else if c.toNat = 12 then ['\\', 'f']
  else if c = '\n' then ['\\', 'n']
  else if c = '\r' then ['\\', 'r']
  else if c = '\t' then ['\\', 't']
  else if c.toNat < 32 ∨ c = '<' ∨ c = '>' ∨ c = '&' then
    ['\\', 'u', '0', '0', hex (c.toNat / 16), hex (c.toNat % 16)]
  else if c.toNat = 0x2028 then "\\u2028".toList
  else if c.toNat = 0x2029 then "\\u2029".toList
  else [c]

/-- The body of a JSON string: each code point escaped in turn. -/
def escapeString : GoString → List Char
  | [] => []
  | c :: cs => escapeChar c ++ escapeString cs

/-- A Go string as a quoted JSON string. -/
def encodeString (s : GoString) : List Char :=
  '"' :: (escapeString s ++ ['"'])

/-- The members of an object, separated by commas. -/
def joinMembers : List (List Char) → List Char
  | [] => []
  | [x] => x
  | x :: y :: rest => x ++ ',' :: joinMembers (y :: rest)

/-- The entries of a map ordered by key, as the map encoder sorts them. -/
def sortByKey {β : Type} (m : List (GoString × β)) : List (GoString × β) :=
  List.insertionSort (fun a b => strLe a.1 b.1) m

/-- An encoded object from its encoded members: `key:value` pairs in braces. -/
def encodeObject (members : List (List Char × List Char)) : List Char :=
  '{' :: (joinMembers (members.map (fun kv => kv.1 ++ ':' :: kv.2)) ++ ['}'])

/-- The encoding of a `map[string]string`: keys sorted, compact form. -/
def encodeStrMap (m : List (GoString × GoString)) : List Char :=
  encodeObject ((sortByKey m).map (fun kv => (encodeString kv.1, encodeString kv.2)))

/-- The encoding of one dynamic value. -/
def encodeValue : Value → List Char
  | .str s => encodeString s
  | .strMap m => encodeStrMap m

/-- The encoding of the message map: keys sorted, compact form. -/
def encodeMessage (m : Message) : List Char :=
  encodeObject ((sortByKey m).map (fun kv => (encodeString kv.1, encodeValue kv.2)))

/-- The outcome of `json.Marshal`: on strings and string-keyed maps of them no
    error arises, so it always returns the encoding. -/
def jsonMarshal (m : Message) : Except String (List Char) :=
  .ok (encodeMessage m)

/-! ## The handler -/

/-- The literal `message` of `response`. -/
def staticMessage : Message :=
  [ ("pair".toList, .str "BTCUSDT".toList),
    ("data".toList, .str "2022.04.27".toList),
    ("time".toList, .str "12:00:00".toList),
    ("volume".toList, .str "321654".toList),
    ("price".toList, .str "38002.2".toList),
    ("all time high".toList, .str "660000.5".toList),
    ("24 high".toList, .str "396564.3".toList),
    ("personal data".toList, .strMap
      [ ("age".toList, "20".toList),
        ("income".toList, "1,300,561 Euro".toList) ]) ]

/-- The request as far as the handler touches it: `formParsed` records that
    `r.ParseForm()` ran (it fills `r.Form`, which the handler never reads). -/
structure Request where
  method : GoString
  url : GoString
  header : List (GoString × GoString)
  body : List Char
  formParsed : Bool
  deriving DecidableEq, Repr

/-- The call `r.ParseForm()`; its error result is discarded by the handler. -/
def Request.ParseForm (r : Request) : Request :=
  { r with formParsed := true }

/-- The state of an `http.ResponseWriter`: the header map, whether the status
    line went out, the status and the headers sent with it, and the body
    bytes written so far. -/
structure ResponseWriter where
  header : List (GoString × GoString)
  wroteHeader : Bool
  status : Nat
  sentHeader : List (GoString × GoString)
  body : List Char
  deriving DecidableEq, Repr

/-- The writer a handler receives: nothing set, nothing written. -/
def ResponseWriter.fresh : ResponseWriter :=
  { header := [], wroteHeader := false, status := 0, sentHeader := [], body := [] }

/-- The call `w.Header().Set(key, value)`; the keys the handler passes are
    already in canonical form, so they are stored as given. -/
def ResponseWriter.Set (w : ResponseWriter) (key value : GoString) : ResponseWriter :=
  { w with header := mapSet w.header key value }

/-- The call `w.WriteHeader(code)`: the first call sends the status line with the
    headers set so far, later calls are ignored. -/
def ResponseWriter.WriteHeader (w : ResponseWriter) (code : Nat) : ResponseWriter :=
  if w.wroteHeader then w
  else { w with wroteHeader := true, status := code, sentHeader := w.header }

/-- The call `w.Write(b)`: sends status 200 first when no status line went out,
    then appends the bytes to the body. -/
def ResponseWriter.Write (w : ResponseWriter) (b : List Char) : ResponseWriter :=
  let w1 := if w.wroteHeader then w else w.WriteHeader 200
  { w1 with body := w1.body ++ b }

/-- The levels of the two kinds of log line the program writes. -/
inductive Level where
  | debug
  | error
  deriving DecidableEq, Repr

/-- One line of the log: level, message, and the `time` field when present. -/
structure LogLine where
  level : Level
  msg : String
  time : Option Nat
  deriving DecidableEq, Repr

/-- What the handler sees of its surroundings: the global log level chosen by
    `setLogger`, and the clock readings of `time.Now()` and `time.Since`. -/
structure Env where
  debug : Bool
  start : Nat
  finish : Nat
  deriving DecidableEq, Repr

/-- The lines that pass the global level filter: error lines always, debug
    lines only at debug level. -/
def emit (env : Env) (l : LogLine) : List LogLine :=
  match l.level with
  | .error => [l]
  | .debug => if env.debug then [l] else []

/-- What a run of the handler leaves behind: the writer, the request, the
    log lines, and whether the handler ended in a runtime panic. -/
structure Outcome where
  w : ResponseWriter
  r : Request
  log : List LogLine
  panicked : Bool
  deriving DecidableEq, Repr

/-- The padding computation `2048 - len(bytePresentation)` on Go's `int`. -/
def requiredDummyDataSize (bytePresentation : List Char) : Int :=
  2048 - (utf8Len bytePresentation : Int)

/-- The allocation `make([]byte, size)`: a zeroed buffer, or `none` for the runtime
    panic `makeslice: len out of range` on a negative size. -/
def makeBytes (size : Int) : Option (List Nat) :=
  if size < 0 then none else some (List.replicate size.toNat 0)

/-- The loop `for i := 0; i < size; i++ { dummyData[i] = 'a' }` from index `i`
    on; `none` is the runtime panic of an index out of range. -/
def fillLoop (size : Int) (i : Nat) (dummyData : List Nat) : Option (List Nat) :=
  if (i : Int) < size then
    if i < dummyData.length then fillLoop size (i + 1) (dummyData.set i 97) else none
  else some dummyData
termination_by (size - (i : Int)).toNat
decreasing_by omega

/-- The conversion `string(dummyData)` for a buffer of ASCII bytes. -/
def bytesToString (b : List Nat) : GoString := b.map Char.ofNat

/-- The key under which the filler is stored. -/
def dummyKey : GoString := "dummy_data".toList

/-- Lines 123 to 153 of `response`, with the local `message` as a parameter:
    marshal, compute the padding, build the filler, store it under
    `dummy_data`, marshal again and write the bytes. -/
def respondWith (message : Message) (env : Env) (w : ResponseWriter) (r : Request) :
    Outcome :=
  match jsonMarshal message with
  | .error _ =>
    { w := w, r := r, panicked := false,
      log := emit env { level := .error, msg := "json.Marshal", time := none } }
  | .ok bytePresentation =>
    let size := requiredDummyDataSize bytePresentation
    match makeBytes size with
    | none => { w := w, r := r, log := [], panicked := true }
    | some zeroed =>
      match fillLoop size 0 zeroed with
      | none => { w := w, r := r, log := [], panicked := true }
      | some dummyData =>
        let message1 := mapSet message dummyKey (.str (bytesToString dummyData))
        match jsonMarshal message1 with
        | .error _ =>
          { w := w, r := r, panicked := false,
            log := emit env { level := .error,
                              msg := "Error serializing message with dummy data",
                              time := none } }
        | .ok bytePresentationWithDummyData =>
          { w := w.Write bytePresentationWithDummyData, r := r, panicked := false,
            log := emit env { level := .debug,
                              msg := "local server response time took.",
                              time := some (env.finish - env.start) } }

/-- The handler `response`. -/
def response (env : Env) (w : ResponseWriter) (r : Request) : Outcome :=
  let r := r.ParseForm
  let w := w.Set "Access-Control-Allow-Origin".toList "*".toList
  let w := w.Set "Access-Control-Allow-Credentials".toList "true".toList
  let w := w.Set "Access-Control-Allow-Headers".toList
    "Origin, X-Requested-With, Content-Type, Accept, Authorization".toList
  let w := w.Set "Access-Control-Allow-Methods".toList
    "GET, POST, PUT, DELETE, OPTIONS".toList
  let w := w.Set "Content-Type".toList "application/json; charset=UTF-8".toList
  let w := w.WriteHeader 200
  respondWith staticMessage env w r

/-! ## The `flag` package as `setLogger` and `main` use it -/

/-- The current value of a registered flag. -/
inductive FlagValue where
  | bool (b : Bool)
  | string (s : GoString)
  deriving DecidableEq, Repr

/-- The command-line flag set: each registered flag with the value of the
    variable it is bound to. -/
structure FlagSet where
  formal : List (GoString × FlagValue)
  deriving DecidableEq, Repr

/-- The call `flag.Bool(name, value, usage)`: registers the flag with its default. -/
def flagBool (f : FlagSet) (name : GoString) (value : Bool) : FlagSet :=
  { formal := mapSet f.formal name (.bool value) }

/-- The call `flag.StringVar(&p, name, value, usage)`: registers the flag and
    stores the default in the variable. -/
def flagStringVar (f : FlagSet) (name : GoString) (value : GoString) : FlagSet :=
  { formal := mapSet f.formal name (.string value) }

/-- The function `strconv.ParseBool`. -/
def parseBool (s : GoString) : Option Bool :=
  if s ∈ ["1".toList, "t".toList, "T".toList, "TRUE".toList, "true".toList, "True".toList]
  then some true
  else if s ∈ ["0".toList, "f".toList, "F".toList, "FALSE".toList, "false".toList,
    "False".toList]
  then some false
  else none

/-- The flag name split at its first `=` that is not the first character:
    the name, and the value when there is one. -/
def splitValue : GoString → GoString × Option GoString
  | [] => ([], none)
  | c :: rest =>
    match rest.span (fun x => x ≠ '=') with
    | (before, []) => (c :: before, none)
    | (before, _ :: value) => (c :: before, some value)

/-- The call `flag.Parse()` on the arguments after the program name, the
    flag set exiting on error: `.error 2` is the exit on a bad or unknown
    flag, `.error 0` the exit after `-h` or `-help`; parsing stops at the
    first argument that is not a flag and at `--`. -/
def flagParse : FlagSet → List GoString → Except Nat FlagSet
  | f, [] => .ok f
  | f, s :: rest =>
    if s.length < 2 ∨ s.head? ≠ some '-' then .ok f
    else
      let numMinuses := if s.get? 1 = some '-' then 2 else 1
      if numMinuses = 2 ∧ s.length = 2 then .ok f
      else
        let name := s.drop numMinuses
        if name = [] ∨ name.head? = some '-' ∨ name.head? = some '=' then .error 2
        else
          match splitValue name with
          | (name, value) =>
            match mapGet f.formal name with
            | none => if name = "help".toList ∨ name = "h".toList then .error 0 else .error 2
            | some (.bool _) =>
              match value with
              | some v =>
                match parseBool v with
                | some b => flagParse { formal := mapSet f.formal name (.bool b) } rest
                | none => .error 2
              | none => flagParse { formal := mapSet f.formal name (.bool true) } rest
            | some (.string _) =>
              match value with
              | some v => flagParse { formal := mapSet f.formal name (.string v) } rest
              | none =>
                match rest with
                | v :: rest1 => flagParse { formal := mapSet f.formal name (.string v) } rest1
                | [] => .error 2

/-- The variable bound to a boolean flag. -/
def FlagSet.boolVar (f : FlagSet) (name : GoString) : Bool :=
  match mapGet f.formal name with
  | some (.bool b) => b
  | _ => false

/-- The variable bound to a string flag. -/
def FlagSet.stringVar (f : FlagSet) (name : GoString) : GoString :=
  match mapGet f.formal name with
  | some (.string s) => s
  | _ => []

/-- The function `setLogger`: registers `-debug`, parses the command line and
    sets the global level; returns the flag set and whether the level is debug,
    or the exit code when parsing ends the process. -/
def setLogger (f : FlagSet) (args : List GoString) : Except Nat (FlagSet × Bool) :=
  let f1 := flagBool f "debug".toList false
  match flagParse f1 args with
  | .error code => .error code
  | .ok f2 => .ok (f2, f2.boolVar "debug".toList)

/-! ## The TLS configuration and the start of the server -/

/-- The constant `tls.VersionTLS12`. -/
def VersionTLS12 : Nat := 0x0303

/-- The constant `tls.VersionTLS13`. -/
def VersionTLS13 : Nat := 0x0304

/-- The constant `tls.TLS_AES_128_GCM_SHA256`. -/
def TLS_AES_128_GCM_SHA256 : Nat := 0x1301

/-- The constant `tls.CurveP256`. -/
def CurveP256 : Nat := 23

/-- The fields of `tls.Config` that `main` sets: the pool and the certificate
    are the texts of the files they were loaded from, absent when unreadable. -/
structure Config where
  RootCAs : Option (List Char)
  CurvePreferences : List Nat
  MinVersion : Nat
  MaxVersion : Nat
  CipherSuites : List Nat
  NextProtos : List GoString
  Certificates : List (Option (List Char) × Option (List Char))
  InsecureSkipVerify : Bool
  deriving DecidableEq, Repr

/-- Whether a protocol version lies in the range the configuration accepts. -/
def Config.acceptsVersion (c : Config) (v : Nat) : Bool :=
  decide (c.MinVersion ≤ v) && decide (v ≤ c.MaxVersion)

/-- What `main` has set up when it starts listening: the log level, the CA
    file it read, the TLS configuration, the listening address, the pattern
    the handler is registered at, and the key pair files handed to the
    listener. -/
structure Startup where
  debug : Bool
  caPath : GoString
  tlsConfig : Config
  addr : GoString
  pattern : GoString
  certFile : GoString
  keyFile : GoString
  deriving DecidableEq, Repr

/-- The function `main` up to the call of `ListenAndServeTLS`, on the
    command-line arguments and the readable files; `.error code` when flag
    parsing in `setLogger` ends the process with that exit code. -/
def main (files : GoString → Option (List Char)) (args : List GoString) :
    Except Nat Startup :=
  match setLogger { formal := [] } args with
  | .error code => .error code
  | .ok (f, debug) =>
    let HostAddr := "localhost".toList
    let HostPort := "8081".toList
    let PathCaCrt := "certs/certificates/ca.crt".toList
    let PathServerPem := "certs/certificates/server.pem".toList
    let PathServerKey := "certs/certificates/server.key".toList
    let UrlPath := "/my-btc-usdt-order".toList
    let f1 := flagStringVar f "path".toList PathCaCrt
    let caPath := f1.stringVar "path".toList
    let cert := (files PathServerPem, files PathServerKey)
    let caCert := files caPath
    let tlsConfig : Config :=
      { RootCAs := caCert,
        CurvePreferences := [CurveP256],
        MinVersion := VersionTLS13,
        MaxVersion := VersionTLS13,
        CipherSuites := [TLS_AES_128_GCM_SHA256],
        NextProtos := ["http/1.1".toList],
        Certificates := [cert],
        InsecureSkipVerify := true }
    .ok { debug := debug, caPath := caPath, tlsConfig := tlsConfig,
          addr := HostAddr ++ ":".toList ++ HostPort, pattern := UrlPath,
          certFile := PathServerPem, keyFile := PathServerKey }

/-! ## Reading a body back: a recogniser for compact JSON

The reference against which the body is checked: the JSON grammar restricted
to objects and strings without insignificant white space. Every text it
accepts is valid JSON.
-/

/-- A JSON document made of objects and strings. -/
inductive JSON where
  | str (s : List Char)
  | obj (members : List (List Char × JSON))

/-- The value of a hexadecimal digit. -/
def hexVal (c : Char) : Option Nat :=
  if 48 ≤ c.toNat ∧ c.toNat ≤ 57 then some (c.toNat - 48)
  else if 97 ≤ c.toNat ∧ c.toNat ≤ 102 then some (c.toNat - 87)
  else if 65 ≤ c.toNat ∧ c.toNat ≤ 70 then some (c.toNat - 55)
  else none

/-- The code point of a `\uXXXX` escape; surrogate halves are not accepted. -/
def unicodeEscape (a b c d : Char) : Option Char :=
  match hexVal a, hexVal b, hexVal c, hexVal d with
  | some x, some y, some z, some t =>
    let n := ((x * 16 + y) * 16 + z) * 16 + t
    if 0xD800 ≤ n ∧ n ≤ 0xDFFF then none else some (Char.ofNat n)
  | _, _, _, _ => none

/-- The characters of a JSON string after its opening quote: the decoded
    string and the text after the closing quote. -/
def parseStringBody : List Char → Option (List Char × List Char)
  | [] => none
  | '"' :: rest => some ([], rest)
  | '\\' :: 'u' :: a :: b :: c :: d :: rest =>
    match unicodeEscape a b c d, parseStringBody rest with
    | some ch, some (s, rest1) => some (ch :: s, rest1)
    | _, _ => none
  | '\\' :: e :: rest =>
    let decoded : Option Char :=
      if e = '"' then some '"'
      else if e = '\\' then some '\\'
      else if e = '/' then some '/'
      else if e = 'b' then some (Char.ofNat 8)
      else if e = 'f' then some (Char.ofNat 12)
      else if e = 'n' then some '\n'
      else if e = 'r' then some '\r'
      else if e = 't' then some '\t'
      else none
    match decoded, parseStringBody rest with
    | some ch, some (s, rest1) => some (ch :: s, rest1)
    | _, _ => none
  | c :: rest =>
    if c.toNat < 32 ∨ c = '\\' then none
    else
      match parseStringBody rest with
      | some (s, rest1) => some (c :: s, rest1)
      | none => none

mutual
/-- A JSON value at the head of the text, with the text after it. -/
def parseValue : Nat → List Char → Option (JSON × List Char)
  | 0, _ => none
  | _ + 1, '"' :: cs =>
    match parseStringBody cs with
    | some (s, rest) => some (.str s, rest)
    | none => none
  | _ + 1, '{' :: '}' :: cs => some (.obj [], cs)
  | fuel + 1, '{' :: cs =>
    match parseMembers fuel cs with
    | some (ms, rest) => some (.obj ms, rest)
    | none => none
  | _ + 1, _ => none
/-- The members of an object after its opening brace, up to and including
    the closing brace. -/
def parseMembers : Nat → List Char → Option (List (List Char × JSON) × List Char)
  | 0, _ => none
  | fuel + 1, '"' :: cs =>
    match parseStringBody cs with
    | some (k, ':' :: rest) =>
      match parseValue fuel rest with
      | some (v, ',' :: rest1) =>
        match parseMembers fuel rest1 with
        | some (ms, rest2) => some ((k, v) :: ms, rest2)
        | none => none
      | some (v, '}' :: rest1) => some ([(k, v)], rest1)
      | _ => none
    | _ => none
  | _ + 1, _ => none
end

/-- A whole text as one JSON document: the value must use up the text. The
    fuel, one unit per value or member, is the length of the text. -/
def parseJSON (text : List Char) : Option JSON :=
  match parseValue (text.length + 1) text with
  | some (v, []) => some v
  | _ => none

/-- The keys of an object, in the order of the text. -/
def JSON.keys : JSON → Option (List (List Char))
  | .obj members => some (members.map Prod.fst)
  | .str _ => none

/-- The value of the first member of an object with the given key. -/
def JSON.get (key : List Char) : JSON → Option JSON
  | .obj members => (members.find? (fun kv => kv.1 = key)).map Prod.snd
  | .str _ => none

/-- The content of a string value. -/
def JSON.asString : JSON → Option (List Char)
  | .str s => some s
  | .obj _ => none

/-! ## Auxiliary definitions for the statements -/

/-- The bytes one entry contributes to the encoded message: key, colon, value. -/
def entryLen (kv : GoString × Value) : Nat :=
  utf8Len (encodeString kv.1) + 1 + utf8Len (encodeValue kv.2)

/-- The debug line the handler logs after writing the body. -/
def timingLine (env : Env) : LogLine :=
  { level := .debug, msg := "local server response time took.",
    time := some (env.finish - env.start) }

/-- The message after the filler for an unpadded size `n` is stored in it. -/
def padded (message : Message) (n : Nat) : Message :=
  mapSet message dummyKey (.str (List.replicate (2048 - n) 'a'))

/-- The five header lines of the response, in the order the handler sets them. -/
def expectedHeaders : List (GoString × GoString) :=
  [ ("Access-Control-Allow-Origin".toList, "*".toList),
    ("Access-Control-Allow-Credentials".toList, "true".toList),
    ("Access-Control-Allow-Headers".toList,
      "Origin, X-Requested-With, Content-Type, Accept, Authorization".toList),
    ("Access-Control-Allow-Methods".toList, "GET, POST, PUT, DELETE, OPTIONS".toList),
    ("Content-Type".toList, "application/json; charset=UTF-8".toList) ]

/-- The writer as `response` leaves it before it turns to the body. -/
def headersSent : ResponseWriter :=
  { header := expectedHeaders, wroteHeader := true, status := 200,
    sentHeader := expectedHeaders, body := [] }

/-- A request with nothing in it, used at concrete inputs. -/
def emptyRequest : Request :=
  { method := "GET".toList, url := "/my-btc-usdt-order".toList, header := [], body := [],
    formParsed := false }

/-- An environment with the debug level off, used at concrete inputs. -/
def quietEnv : Env := { debug := false, start := 0, finish := 0 }

/-- A message whose unpadded encoding is exactly 2048 bytes long. -/
def message2048 : Message := [ ("k".toList, .str (List.replicate 2040 'a')) ]

/-- The responses a server gives to a sequence of requests: the handler runs
    on each with a writer of its own. -/
def serveAll (requests : List (Env × Request)) : List ResponseWriter :=
  requests.map (fun er => (response er.1 .fresh er.2).w)

/-- The keys of the static message as the interface lists them, with the filler. -/
def listedKeys : List GoString :=
  [ "pair".toList, "data".toList, "time".toList, "volume".toList, "price".toList,
    "all time high".toList, "24 high".toList, "personal data".toList, "dummy_data".toList ]

/-- The file `main` names as the default CA bundle. -/
def defaultCaPath : GoString := "certs/certificates/ca.crt".toList

/-- No files readable: the file system used at concrete inputs. -/
def noFiles : GoString → Option (List Char) := fun _ => none

/-- What `main` has set up when started without arguments and without
    readable files. -/
def startupNoArgs : Startup :=
  { debug := false, caPath := "certs/certificates/ca.crt".toList,
    tlsConfig :=
      { RootCAs := none, CurvePreferences := [23], MinVersion := 0x0304, MaxVersion := 0x0304,
        CipherSuites := [0x1301], NextProtos := ["http/1.1".toList],
        Certificates := [(none, none)], InsecureSkipVerify := true },
    addr := "localhost:8081".toList, pattern := "/my-btc-usdt-order".toList,
    certFile := "certs/certificates/server.pem".toList,
    keyFile := "certs/certificates/server.key".toList }

/-! ## Lemmas on lengths and on the filler -/

theorem utf8Len_append (a b : List Char) : utf8Len (a ++ b) = utf8Len a + utf8Len b := by
  induction a with
  | nil => simp [utf8Len]
  | cons c cs ih => simp [utf8Len, ih, Nat.add_assoc]

theorem utf8Len_replicate_a (k : Nat) : utf8Len (List.replicate k 'a') = k := by
  induction k with
  | zero => rfl
  | succ k ih =>
    have h : Char.utf8Size 'a' = 1 := by decide
    simp [List.replicate_succ, utf8Len, ih, h, Nat.add_comm]

theorem escapeString_replicate_a (k : Nat) :
    escapeString (List.replicate k 'a') = List.replicate k 'a' := by
  induction k with
  | zero => rfl
  | succ k ih =>
    have h : escapeChar 'a' = ['a'] := by decide
    simp [List.replicate_succ, escapeString, ih, h]

/-- The loop invariant: with the first `i` bytes already `'a'` and the rest
    zero, the loop ends with every byte `'a'`. -/
theorem fillLoop_spec (n d i : Nat) (hd : i + d = n) :
    fillLoop (n : Int) i (List.replicate i 97 ++ List.replicate d 0)
      = some (List.replicate n 97) := by
  induction d generalizing i with
  | zero =>
    have hi : i = n := by omega
    subst hi
    rw [fillLoop]
    simp
  | succ d ih =>
    have hlt : (i : Int) < (n : Int) := by omega
    have hlen : i < (List.replicate i 97 ++ List.replicate (d + 1) 0).length := by
      simp
    have hset : (List.replicate i 97 ++ List.replicate (d + 1) 0).set i 97
        = List.replicate (i + 1) 97 ++ List.replicate d 0 := by
      rw [List.set_append_right _ _ (by simp), List.replicate_succ' i]
      simp [List.replicate_succ]
    rw [fillLoop]
    simp only [hlt, hlen, if_true, hset]
    exact ih (i + 1) (by omega)

theorem bytesToString_replicate (k : Nat) :
    bytesToString (List.replicate k 97) = List.replicate k 'a' := by
  simp [bytesToString]

/-- The allocation and the loop together on a non-negative size: the filler
    is `size` bytes, each `'a'`. -/
theorem filler_spec (k : Nat) :
    makeBytes (k : Int) = some (List.replicate k 0) ∧
    fillLoop (k : Int) 0 (List.replicate k 0) = some (List.replicate k 97) := by
  constructor
  · simp [makeBytes]
  · have h := fillLoop_spec k k 0 (by omega)
    simpa using h

/-! ## The size of an encoded message -/

theorem utf8Len_joinMembers (l : List (List Char)) :
    utf8Len (joinMembers l) = (l.map utf8Len).sum + (l.length - 1) := by
  induction l with
  | nil => rfl
  | cons x rest ih =>
    cases rest with
    | nil => simp [joinMembers]
    | cons y rest =>
      have hc : Char.utf8Size ',' = 1 := by decide
      simp only [joinMembers, utf8Len_append, utf8Len, ih, hc, List.map_cons, List.sum_cons,
        List.length_cons]
      omega

theorem utf8Len_encodeObject (members : List (List Char × List Char)) :
    utf8Len (encodeObject members)
      = 2 + (members.map (fun kv => utf8Len kv.1 + 1 + utf8Len kv.2)).sum
          + (members.length - 1) := by
  have hl : Char.utf8Size '{' = 1 := by decide
  have hr : Char.utf8Size '}' = 1 := by decide
  have hc : Char.utf8Size ':' = 1 := by decide
  have hf : (fun x : List Char × List Char => utf8Len x.1 + (Char.utf8Size ':' + utf8Len x.2))
      = (fun kv => utf8Len kv.1 + 1 + utf8Len kv.2) := by
    funext kv
    simp [hc, Nat.add_assoc]
  simp only [encodeObject, utf8Len, utf8Len_append, utf8Len_joinMembers, hl, hr,
    List.map_map, List.length_map, Function.comp_def, hf]
  omega

theorem sortByKey_perm {β : Type} (m : List (GoString × β)) : (sortByKey m).Perm m :=
  List.perm_insertionSort _ m

/-- The size of the encoded message does not depend on the order of the
    entries: two braces, the entries, and a comma between neighbours. -/
theorem utf8Len_encodeMessage (m : Message) :
    utf8Len (encodeMessage m) = 2 + (m.map entryLen).sum + (m.length - 1) := by
  have hp := sortByKey_perm m
  have hsum : ((sortByKey m).map entryLen).sum = (m.map entryLen).sum :=
    (hp.map entryLen).sum_eq
  have hlen : (sortByKey m).length = m.length := hp.length_eq
  simp only [encodeMessage, utf8Len_encodeObject, List.map_map, List.length_map,
    Function.comp_def]
  have hf : (fun x : GoString × Value =>
      utf8Len (encodeString x.1) + 1 + utf8Len (encodeValue x.2)) = entryLen := rfl
  rw [hf, hsum, hlen]

theorem mapSet_of_mapGet_none {β : Type} (m : List (GoString × β)) (key : GoString)
    (val : β) (h : mapGet m key = none) : mapSet m key val = m ++ [(key, val)] := by
  induction m with
  | nil => rfl
  | cons e rest ih =>
    obtain ⟨k, v⟩ := e
    by_cases hk : k = key
    · simp [mapGet, hk] at h
    · simp only [mapGet, hk, if_false] at h
      simp [mapSet, hk, ih h]

theorem mapGet_mapSet {β : Type} (m : List (GoString × β)) (key : GoString) (val : β) :
    mapGet (mapSet m key val) key = some val := by
  induction m with
  | nil => simp [mapSet, mapGet]
  | cons e rest ih =>
    obtain ⟨k, v⟩ := e
    by_cases hk : k = key
    · simp [mapSet, mapGet, hk]
    · simp [mapSet, mapGet, hk, ih]

theorem entryLen_dummy (k : Nat) :
    entryLen (dummyKey, Value.str (List.replicate k 'a')) = k + 15 := by
  have hq : Char.utf8Size '"' = 1 := by decide
  have hkey : utf8Len (encodeString dummyKey) = 12 := by decide
  simp only [entryLen, encodeValue, hkey]
  simp only [encodeString, utf8Len, utf8Len_append, escapeString_replicate_a,
    utf8Len_replicate_a, hq]
  omega

/-- Storing a filler of `k` bytes under a key the message does not have yet
    adds `k + 15` bytes to the encoding, and one more for the comma when the
    message had entries. -/
theorem utf8Len_encodeMessage_mapSet (m : Message) (k : Nat)
    (h : mapGet m dummyKey = none) :
    utf8Len (encodeMessage (mapSet m dummyKey (.str (List.replicate k 'a'))))
      = utf8Len (encodeMessage m) + k + 15 + (if m = [] then 0 else 1) := by
  rw [mapSet_of_mapGet_none m _ _ h, utf8Len_encodeMessage, utf8Len_encodeMessage]
  simp only [List.map_append, List.sum_append, List.map_cons, List.map_nil, List.sum_cons,
    List.sum_nil, List.length_append, List.length_cons, List.length_nil, entryLen_dummy]
  cases m with
  | nil => simp; omega
  | cons e rest => simp; omega

/-! ## What `respondWith` does, by the size of the unpadded encoding -/

theorem requiredDummyDataSize_eq (b : List Char) (h : utf8Len b ≤ 2048) :
    requiredDummyDataSize b = ((2048 - utf8Len b : Nat) : Int) := by
  unfold requiredDummyDataSize
  omega

/-- With an unpadded encoding of at most 2048 bytes the handler writes the
    encoding of the padded message. -/
theorem respondWith_of_le (message : Message) (env : Env) (w : ResponseWriter)
    (r : Request) (h : utf8Len (encodeMessage message) ≤ 2048) :
    respondWith message env w r =
      { w := w.Write (encodeMessage (padded message (utf8Len (encodeMessage message)))),
        r := r, log := emit env (timingLine env), panicked := false } := by
  have hs := requiredDummyDataSize_eq (encodeMessage message) h
  have hf := filler_spec (2048 - utf8Len (encodeMessage message))
  simp only [respondWith, jsonMarshal, hs, hf.1, hf.2, bytesToString_replicate, padded,
    timingLine]

/-- With an unpadded encoding of more than 2048 bytes the allocation panics
    and nothing is written. -/
theorem respondWith_of_gt (message : Message) (env : Env) (w : ResponseWriter)
    (r : Request) (h : 2048 < utf8Len (encodeMessage message)) :
    respondWith message env w r = { w := w, r := r, log := [], panicked := true } := by
  have hs : requiredDummyDataSize (encodeMessage message) < 0 := by
    unfold requiredDummyDataSize
    omega
  simp only [respondWith, jsonMarshal, makeBytes, hs, if_true]

theorem staticMessage_size : utf8Len (encodeMessage staticMessage) = 195 := by
  decide!

theorem staticMessage_no_dummy : mapGet staticMessage dummyKey = none := by
  decide!

theorem response_eq_respondWith (env : Env) (r : Request) :
    response env .fresh r = respondWith staticMessage env headersSent r.ParseForm := by
  have h : ((((((ResponseWriter.fresh.Set "Access-Control-Allow-Origin".toList "*".toList).Set
      "Access-Control-Allow-Credentials".toList "true".toList).Set
      "Access-Control-Allow-Headers".toList
      "Origin, X-Requested-With, Content-Type, Accept, Authorization".toList).Set
      "Access-Control-Allow-Methods".toList "GET, POST, PUT, DELETE, OPTIONS".toList).Set
      "Content-Type".toList "application/json; charset=UTF-8".toList).WriteHeader 200)
      = headersSent := by decide!
  simp only [response, h]

/-- The outcome of `response` on a fresh writer, in closed form. -/
theorem response_closed (env : Env) (r : Request) :
    response env .fresh r =
      { w := { headersSent with body := encodeMessage (padded staticMessage 195) },
        r := r.ParseForm, log := emit env (timingLine env), panicked := false } := by
  rw [response_eq_respondWith, respondWith_of_le _ _ _ _ (by rw [staticMessage_size]; omega),
    staticMessage_size]
  rfl

theorem padded_static_size : utf8Len (encodeMessage (padded staticMessage 195)) = 2064 := by
  have h := utf8Len_encodeMessage_mapSet staticMessage (2048 - 195) staticMessage_no_dummy
  rw [staticMessage_size] at h
  have hne : staticMessage ≠ [] := by simp [staticMessage]
  simp only [padded, h, hne, if_false]

/-! ## The handler's response: size, filler, fault -/

/-- C1: on every request the static message encodes to 195 bytes unpadded,
    below 2048, and the body `response` writes is 2064 bytes long: the filler
    of 1853 bytes plus the 16 bytes of the `dummy_data` entry around it, so the
    body is not the 2048 bytes the padding aims at. -/
theorem response_body_size (env : Env) (r : Request) :
    utf8Len (encodeMessage staticMessage) = 195 ∧
    utf8Len (response env .fresh r).w.body = 2064 ∧
    utf8Len (response env .fresh r).w.body ≠ 2048 := by
  rw [response_closed]
  simp only [padded_static_size, staticMessage_size]
  decide

/-- C2: for a message without a `dummy_data` key whose encoding has `n < 2048`
    bytes, the handler does not fault, the value it stores under `dummy_data`
    is a string of exactly `2048 - n` bytes, stored as a new entry, and the
    bytes it writes are the encoding of the message with that entry. -/
theorem dummy_data_length (message : Message) (env : Env) (w : ResponseWriter) (r : Request)
    (hkey : mapGet message dummyKey = none)
    (hn : utf8Len (encodeMessage message) < 2048) :
    ∃ filler : GoString,
      utf8Len filler = 2048 - utf8Len (encodeMessage message) ∧
      mapGet (mapSet message dummyKey (.str filler)) dummyKey = some (.str filler) ∧
      mapSet message dummyKey (.str filler) = message ++ [(dummyKey, .str filler)] ∧
      (respondWith message env w r).panicked = false ∧
      (respondWith message env w r).w
        = w.Write (encodeMessage (mapSet message dummyKey (.str filler))) := by
  refine ⟨List.replicate (2048 - utf8Len (encodeMessage message)) 'a', ?_, ?_, ?_, ?_, ?_⟩
  · exact utf8Len_replicate_a _
  · exact mapGet_mapSet _ _ _
  · exact mapSet_of_mapGet_none _ _ _ hkey
  · rw [respondWith_of_le _ _ _ _ (Nat.le_of_lt hn)]
  · rw [respondWith_of_le _ _ _ _ (Nat.le_of_lt hn)]
    rfl

/-- The static message of the handler meets the hypotheses of C2, and its
    filler has 2048 - 195 bytes. -/
theorem dummy_data_length_witness :
    mapGet staticMessage dummyKey = none ∧
    utf8Len (encodeMessage staticMessage) < 2048 ∧
    ∃ filler : GoString,
      utf8Len filler = 2048 - utf8Len (encodeMessage staticMessage) ∧
      mapGet (mapSet staticMessage dummyKey (.str filler)) dummyKey = some (.str filler) ∧
      mapSet staticMessage dummyKey (.str filler)
        = staticMessage ++ [(dummyKey, .str filler)] ∧
      (respondWith staticMessage quietEnv headersSent emptyRequest).panicked = false ∧
      (respondWith staticMessage quietEnv headersSent emptyRequest).w
        = headersSent.Write (encodeMessage (mapSet staticMessage dummyKey (.str filler))) :=
  ⟨staticMessage_no_dummy, by rw [staticMessage_size]; decide,
    dummy_data_length staticMessage quietEnv headersSent emptyRequest staticMessage_no_dummy
      (by rw [staticMessage_size]; decide)⟩

/-- C3: for a message without a `dummy_data` key whose encoding has `n < 2048`
    bytes, the bytes the handler appends to the body number more than
    `n + (2048 - n)`, hence not 2048: the excess over 2048 is 16 bytes, or 15
    for the empty message, which needs no comma. -/
theorem reserialized_size_exceeds (message : Message) (env : Env) (w : ResponseWriter)
    (r : Request) (hkey : mapGet message dummyKey = none)
    (hn : utf8Len (encodeMessage message) < 2048) :
    ∃ written : List Char,
      (respondWith message env w r).w.body = w.body ++ written ∧
      utf8Len (encodeMessage message) + (2048 - utf8Len (encodeMessage message))
        < utf8Len written ∧
      utf8Len written ≠ 2048 ∧
      utf8Len written = 2048 + 15 + (if message = [] then 0 else 1) := by
  refine ⟨encodeMessage (padded message (utf8Len (encodeMessage message))), ?_, ?_, ?_, ?_⟩
  · rw [respondWith_of_le _ _ _ _ (Nat.le_of_lt hn)]
    simp only [ResponseWriter.Write, ResponseWriter.WriteHeader]
    split <;> rfl
  all_goals
    simp only [padded, utf8Len_encodeMessage_mapSet message _ hkey]
    split <;> omega

/-- The static message of the handler meets the hypotheses of C3. -/
theorem reserialized_size_exceeds_witness :
    mapGet staticMessage dummyKey = none ∧
    utf8Len (encodeMessage staticMessage) < 2048 ∧
    ∃ written : List Char,
      (respondWith staticMessage quietEnv headersSent emptyRequest).w.body
        = headersSent.body ++ written ∧
      utf8Len (encodeMessage staticMessage) + (2048 - utf8Len (encodeMessage staticMessage))
        < utf8Len written ∧
      utf8Len written ≠ 2048 ∧
      utf8Len written = 2048 + 15 + (if staticMessage = [] then 0 else 1) :=
  ⟨staticMessage_no_dummy, by rw [staticMessage_size]; decide,
    reserialized_size_exceeds staticMessage quietEnv headersSent emptyRequest
      staticMessage_no_dummy (by rw [staticMessage_size]; decide)⟩

theorem singleton_size (k : Nat) :
    utf8Len (encodeMessage [ ("k".toList, .str (List.replicate k 'a')) ]) = k + 8 := by
  have hq : Char.utf8Size '"' = 1 := by decide
  have hk : utf8Len (encodeString "k".toList) = 3 := by decide
  simp only [utf8Len_encodeMessage, entryLen, encodeValue, hk, List.map_cons,
    List.map_nil, List.sum_cons, List.sum_nil, List.length_cons, List.length_nil]
  simp only [encodeString, utf8Len, utf8Len_append, escapeString_replicate_a,
    utf8Len_replicate_a, hq]
  omega

theorem message2048_size : utf8Len (encodeMessage message2048) = 2048 :=
  singleton_size 2040

/-- C4, as stated, fails at the unpadded size 2048: the padding is 0, not
    negative, the allocation succeeds and the handler writes a body. -/
theorem fault_at_2048_refuted :
    utf8Len (encodeMessage message2048) = 2048 ∧
    ¬ (requiredDummyDataSize (encodeMessage message2048) < 0) ∧
    makeBytes (requiredDummyDataSize (encodeMessage message2048)) = some [] ∧
    (respondWith message2048 quietEnv headersSent emptyRequest).panicked = false ∧
    (respondWith message2048 quietEnv headersSent emptyRequest).w.body ≠ [] := by
  have hsz := message2048_size
  have hr : requiredDummyDataSize (encodeMessage message2048) = 0 := by
    unfold requiredDummyDataSize
    omega
  refine ⟨hsz, by rw [hr]; decide, by rw [hr]; decide, ?_, ?_⟩
  · rw [respondWith_of_le _ _ _ _ (Nat.le_of_eq hsz)]
  · rw [respondWith_of_le _ _ _ _ (Nat.le_of_eq hsz)]
    simp [ResponseWriter.Write, headersSent, encodeMessage, encodeObject]

/-- C4, amended: the padding `2048 - n` is negative exactly when the unpadded
    size `n` exceeds 2048, and exactly then the handler faults at the
    allocation, leaving the writer untouched; for `n ≤ 2048` it does not fault
    and writes the encoding of the padded message. -/
theorem fault_iff_oversized (message : Message) (env : Env) (w : ResponseWriter)
    (r : Request) :
    (requiredDummyDataSize (encodeMessage message) < 0
      ↔ 2048 < utf8Len (encodeMessage message)) ∧
    (makeBytes (requiredDummyDataSize (encodeMessage message)) = none
      ↔ 2048 < utf8Len (encodeMessage message)) ∧
    ((respondWith message env w r).panicked = true
      ↔ 2048 < utf8Len (encodeMessage message)) ∧
    (respondWith message env w r).w
      = (if 2048 < utf8Len (encodeMessage message) then w
         else w.Write (encodeMessage (padded message (utf8Len (encodeMessage message))))) := by
  have hneg : requiredDummyDataSize (encodeMessage message) < 0
      ↔ 2048 < utf8Len (encodeMessage message) := by
    unfold requiredDummyDataSize
    omega
  refine ⟨hneg, ?_, ?_, ?_⟩
  · simp only [makeBytes]
    split
    · simpa using hneg.mp ‹_›
    · simp only [reduceCtorEq, false_iff]
      exact fun h => ‹¬ _› (hneg.mpr h)
  · by_cases h : 2048 < utf8Len (encodeMessage message)
    · simp [respondWith_of_gt _ _ _ _ h, h]
    · simp [respondWith_of_le _ _ _ _ (Nat.le_of_not_lt h), h]
  · by_cases h : 2048 < utf8Len (encodeMessage message)
    · simp [respondWith_of_gt _ _ _ _ h, h]
    · simp [respondWith_of_le _ _ _ _ (Nat.le_of_not_lt h), h]

/-! ## The handler's response: headers, status, shape of the body -/

/-- C5: on every request the status line has gone out with status 200 and with
    exactly the five headers of the interface, which are also the header map
    at the end; the handler does not fault; and replacing the request method
    by any other leaves the whole response unchanged. -/
theorem response_headers_and_status (env : Env) (r : Request) :
    (response env .fresh r).w.wroteHeader = true ∧
    (response env .fresh r).w.status = 200 ∧
    (response env .fresh r).w.sentHeader = expectedHeaders ∧
    (response env .fresh r).w.header = expectedHeaders ∧
    (response env .fresh r).panicked = false ∧
    ∀ method : GoString,
      (response env .fresh { r with method := method }).w = (response env .fresh r).w := by
  refine ⟨?_, ?_, ?_, ?_, ?_, ?_⟩
  · rw [response_closed]; rfl
  · rw [response_closed]; rfl
  · rw [response_closed]; rfl
  · rw [response_closed]; rfl
  · rw [response_closed]
  · intro method
    rw [response_closed, response_closed]

/-- C8: the writer `response` leaves behind (status, headers, body) and the
    absence of a fault are the same for any two requests and any two
    environments (log level, clock readings), and the responses to a sequence
    of requests are as many copies of that one response. -/
theorem response_independent (env1 env2 : Env) (r1 r2 : Request)
    (requests : List (Env × Request)) :
    (response env1 .fresh r1).w = (response env2 .fresh r2).w ∧
    (response env1 .fresh r1).panicked = (response env2 .fresh r2).panicked ∧
    (response env1 .fresh r1).w.status = 200 ∧
    (response env1 .fresh r1).w.sentHeader = expectedHeaders ∧
    serveAll requests = List.replicate requests.length (response env1 .fresh r1).w := by
  refine ⟨?_, ?_, ?_, ?_, ?_⟩
  · rw [response_closed, response_closed]
  · rw [response_closed, response_closed]
  · rw [response_closed]; rfl
  · rw [response_closed]; rfl
  · have h : ∀ er : Env × Request,
        (response er.1 .fresh er.2).w = (response env1 .fresh r1).w := by
      intro er
      rw [response_closed, response_closed]
    induction requests with
    | nil => rfl
    | cons er rest ih =>
      simp only [serveAll, List.map_cons, List.length_cons, List.replicate_succ, h er] at ih ⊢
      rw [ih]

theorem body_keys :
    (parseJSON (encodeMessage (padded staticMessage 195))).bind JSON.keys
      = some [ "24 high".toList, "all time high".toList, "data".toList, "dummy_data".toList,
               "pair".toList, "personal data".toList, "price".toList, "time".toList,
               "volume".toList ] := by
  decide!

theorem body_personal_keys :
    ((parseJSON (encodeMessage (padded staticMessage 195))).bind
        (JSON.get "personal data".toList)).bind JSON.keys
      = some [ "age".toList, "income".toList ] := by
  decide!

theorem body_fields :
    (((parseJSON (encodeMessage (padded staticMessage 195))).bind
        (JSON.get "pair".toList)).bind JSON.asString = some "BTCUSDT".toList) ∧
    (((parseJSON (encodeMessage (padded staticMessage 195))).bind
        (JSON.get "price".toList)).bind JSON.asString = some "38002.2".toList) := by
  decide!

theorem body_dummy :
    ((parseJSON (encodeMessage (padded staticMessage 195))).bind
        (JSON.get dummyKey)).bind JSON.asString
      = some (List.replicate 1853 'a') := by
  decide!

/-- C6: the body of every response is accepted as a JSON document; it is an
    object with nine top-level keys, no two equal, which are the listed keys
    up to order; its `personal data` member is an object with the keys `age`
    and `income` and no other; `pair` is `BTCUSDT` and `price` is `38002.2`. -/
theorem response_body_keys (env : Env) (r : Request) :
    ∃ keys : List GoString,
      (parseJSON (response env .fresh r).w.body).bind JSON.keys = some keys ∧
      keys.length = 9 ∧ keys.Nodup ∧ keys.Perm listedKeys ∧
      ((parseJSON (response env .fresh r).w.body).bind
          (JSON.get "personal data".toList)).bind JSON.keys
        = some [ "age".toList, "income".toList ] ∧
      ((parseJSON (response env .fresh r).w.body).bind
          (JSON.get "pair".toList)).bind JSON.asString = some "BTCUSDT".toList ∧
      ((parseJSON (response env .fresh r).w.body).bind
          (JSON.get "price".toList)).bind JSON.asString = some "38002.2".toList := by
  rw [response_closed]
  exact ⟨_, body_keys, by decide, by decide, by decide!, body_personal_keys,
    body_fields.1, body_fields.2⟩

/-- C7: in the body of every response the `dummy_data` member is present and
    its value is the character `a` repeated 1853 times and nothing else; the
    buffer the loop leaves holds the byte `'a'` at every index, none left zero,
    and the encoder copies such a string between quotes without change. -/
theorem response_dummy_all_a (env : Env) (r : Request) :
    ∃ value : GoString,
      ((parseJSON (response env .fresh r).w.body).bind
          (JSON.get dummyKey)).bind JSON.asString = some value ∧
      value = List.replicate 1853 'a' ∧
      (∃ zeroed dummyData : List Nat,
        makeBytes (requiredDummyDataSize (encodeMessage staticMessage)) = some zeroed ∧
        fillLoop (requiredDummyDataSize (encodeMessage staticMessage)) 0 zeroed
          = some dummyData ∧
        dummyData = List.replicate 1853 97 ∧
        bytesToString dummyData = value) ∧
      encodeString value = '"' :: (value ++ ['"']) := by
  rw [response_closed]
  refine ⟨List.replicate 1853 'a', body_dummy, rfl, ?_, ?_⟩
  · have hs : requiredDummyDataSize (encodeMessage staticMessage) = ((1853 : Nat) : Int) := by
      rw [requiredDummyDataSize_eq _ (by rw [staticMessage_size]; omega), staticMessage_size]
    rw [hs]
    exact ⟨List.replicate 1853 0, List.replicate 1853 97, (filler_spec 1853).1,
      (filler_spec 1853).2, rfl, bytesToString_replicate 1853⟩
  · simp only [encodeString, escapeString_replicate_a]

/-! ## The start of the server: TLS configuration and the CA path -/

theorem main_caPath (files : GoString → Option (List Char)) (args : List GoString)
    (s : Startup) (h : main files args = .ok s) : s.caPath = defaultCaPath := by
  unfold main at h
  split at h
  · cases h
  · simp only [Except.ok.injEq] at h
    subst h
    simp only [flagStringVar, FlagSet.stringVar, mapGet_mapSet]
    rfl

/-- C9: whenever `main` gets to start the server, the TLS configuration has
    minimum and maximum version TLS 1.3, so that a version is in the accepted
    range exactly when it is TLS 1.3 and TLS 1.2 is not, the one cipher suite
    TLS_AES_128_GCM_SHA256, the one curve P-256, the one protocol `http/1.1`,
    and verification of the peer switched off; the address is
    `localhost:8081` and the handler pattern `/my-btc-usdt-order`. -/
theorem main_tls_config (files : GoString → Option (List Char)) (args : List GoString)
    (s : Startup) (h : main files args = .ok s) :
    s.tlsConfig.MinVersion = VersionTLS13 ∧
    s.tlsConfig.MaxVersion = VersionTLS13 ∧
    (∀ v : Nat, s.tlsConfig.acceptsVersion v = true ↔ v = VersionTLS13) ∧
    s.tlsConfig.acceptsVersion VersionTLS12 = false ∧
    s.tlsConfig.CipherSuites = [TLS_AES_128_GCM_SHA256] ∧
    s.tlsConfig.CurvePreferences = [CurveP256] ∧
    s.tlsConfig.NextProtos = ["http/1.1".toList] ∧
    s.tlsConfig.InsecureSkipVerify = true ∧
    s.addr = "localhost:8081".toList ∧
    s.pattern = "/my-btc-usdt-order".toList := by
  unfold main at h
  split at h
  · cases h
  · simp only [Except.ok.injEq] at h
    subst h
    refine ⟨rfl, rfl, ?_, rfl, rfl, rfl, rfl, rfl, rfl, rfl⟩
    intro v
    simp only [Config.acceptsVersion, Bool.and_eq_true, decide_eq_true_eq]
    omega

/-- Started without arguments and without readable files, `main` reaches the
    listener, with the configuration of C9. -/
theorem main_tls_config_witness :
    (∃ s : Startup, main noFiles [] = .ok s ∧
      s.tlsConfig.MinVersion = VersionTLS13 ∧
      s.tlsConfig.MaxVersion = VersionTLS13 ∧
      (∀ v : Nat, s.tlsConfig.acceptsVersion v = true ↔ v = VersionTLS13) ∧
      s.tlsConfig.acceptsVersion VersionTLS12 = false ∧
      s.tlsConfig.CipherSuites = [TLS_AES_128_GCM_SHA256] ∧
      s.tlsConfig.CurvePreferences = [CurveP256] ∧
      s.tlsConfig.NextProtos = ["http/1.1".toList] ∧
      s.tlsConfig.InsecureSkipVerify = true ∧
      s.addr = "localhost:8081".toList ∧
      s.pattern = "/my-btc-usdt-order".toList) :=
  ⟨startupNoArgs, rfl, main_tls_config noFiles [] startupNoArgs rfl⟩

/-- C10, on the code: given `-path P` as the first arguments, in either
    spelling, `main` ends in `setLogger` with exit code 2, since the flag is
    not registered yet when the command line is parsed, and reads no file;
    and on every command line on which `main` does get to read the CA bundle,
    the file it reads is the default `certs/certificates/ca.crt`. -/
theorem main_path_flag_not_honoured (files : GoString → Option (List Char))
    (P : GoString) (rest args : List GoString) :
    main files ("-path".toList :: P :: rest) = .error 2 ∧
    main files (("-path=".toList ++ P) :: rest) = .error 2 ∧
    (main files ("--".toList :: "-path".toList :: P :: rest)).toOption.map Startup.caPath
      = some defaultCaPath ∧
    (match main files args with
     | .ok s => s.caPath = defaultCaPath
     | .error _ => True) := by
  refine ⟨rfl, rfl, rfl, ?_⟩
  · split
    · exact main_caPath files args _ ‹_›
    · trivial

end Server
